import Mathlib

/-
Verification of the telemetry subsystem declared in
tensorflow_data_validation/anomalies/telemetry.h.

The repository provides only the interface declaration
`void UpdateTelemetry(const metadata::v0::Anomalies& result);`.
The specification defines the subsystem that this function must realize:
an AnomalyClassifier over anomaly records and a TelemetryAggregator that
updates process-wide counters.  The definitions below embed that subsystem;
each definition whose implementation is absent from the repository sources
is modelled from the specification text and marked as such.
-/

namespace TFDV

/-- Modelled from the spec: the enumerated severity of an anomaly record
(the implementation behind telemetry.h is not in the sources; the spec
names WARNING and ERROR, plus a defined UNKNOWN classification for
unset fields). -/
inductive Severity where
  | UNKNOWN
  | WARNING
  | ERROR
deriving DecidableEq, Repr, Fintype

/-- Modelled from the spec: the enumerated kind of an anomaly
(the implementation behind telemetry.h is not in the sources; the spec
sketches missing-column, type-mismatch and distribution-skew as the
placeholder enumeration, plus a defined UNKNOWN classification).
MISSING_COLUMN and TYPE_MISMATCH are schema-structural kinds;
DISTRIBUTION_SKEW is a statistical kind. -/
inductive AnomalyType where
  | UNKNOWN
  | DISTRIBUTION_SKEW
  | TYPE_MISMATCH
  | MISSING_COLUMN
deriving DecidableEq, Repr, Fintype

/-- A classification as used for the metric dimensions. -/
abbrev ClassKey := AnomalyType × Severity

/-- Modelled from the spec: one structured sub-cause carried by an
`AnomalyInfo` (optional fields may be unset). -/
structure Cause where
  anomaly_type : Option AnomalyType
  severity : Option Severity
  short_description : String
deriving DecidableEq, Repr

/-- Modelled from the spec: one detected problem for a feature or the
dataset as a whole.  `anomaly_type` and `severity` may be unset;
`reason` holds the optional structured sub-causes. -/
structure AnomalyInfo where
  anomaly_type : Option AnomalyType
  severity : Option Severity
  short_description : String
  reason : List Cause
deriving DecidableEq, Repr

/-- Modelled from the spec: the result of one validation run:
a mapping from feature identifier to its anomaly record, an ordered
sequence of dataset-level records, and the baseline metadata. -/
structure Anomalies where
  feature_anomalies : List (String × AnomalyInfo)
  dataset_anomalies : List AnomalyInfo
  baseline_metadata : String
deriving DecidableEq, Repr

/-- Modelled from the spec: the process-wide telemetry state: a counter
per `(anomaly_type, severity)` key, a total-runs counter and a
total-anomalous-runs counter. -/
structure TelemetryCounters where
  counts : ClassKey → Nat
  total_runs : Nat
  total_anomalous_runs : Nat

/-- Rank of a severity, used to select the highest-severity cause. -/
def sevRank : Severity → Nat
  | .UNKNOWN => 0
  | .WARNING => 1
  | .ERROR => 2

/-- Modelled from the spec: the fixed priority ordering over anomaly
types used to break severity ties; schema-structural anomaly kinds rank
above statistical ones, and UNKNOWN ranks lowest. -/
def typePrio : AnomalyType → Nat
  | .UNKNOWN => 0
  | .DISTRIBUTION_SKEW => 1
  | .TYPE_MISMATCH => 2
  | .MISSING_COLUMN => 3

/-- Strict comparison of classification keys: first by severity rank,
then by the fixed anomaly-type priority. -/
def keyLt (a b : ClassKey) : Bool :=
  sevRank a.2 < sevRank b.2 ∨ (sevRank a.2 = sevRank b.2 ∧ typePrio a.1 < typePrio b.1)

/-- Non-strict key ordering: higher severity wins, ties go to the
higher anomaly-type priority. -/
def lexLe (a b : ClassKey) : Prop :=
  sevRank a.2 < sevRank b.2 ∨ (sevRank a.2 = sevRank b.2 ∧ typePrio a.1 ≤ typePrio b.1)

instance (a b : ClassKey) : Decidable (lexLe a b) := by
  unfold lexLe; infer_instance

/-- Modelled from the spec: classification of a single structured cause;
a cause that cannot be classified (unset type) is mapped to the defined
UNKNOWN/UNKNOWN bucket rather than erroring. -/
def causeKey (c : Cause) : ClassKey :=
  match c.anomaly_type with
  | none => (.UNKNOWN, .UNKNOWN)
  | some t => (t, c.severity.getD .UNKNOWN)

/-- Modelled from the spec: classification of an `AnomalyInfo` from its
top-level fields, used when it carries no structured causes. -/
def classifyTop (info : AnomalyInfo) : ClassKey :=
  match info.anomaly_type with
  | none => (.UNKNOWN, .UNKNOWN)
  | some t => (t, info.severity.getD .UNKNOWN)

/-- Keys of the structured causes of an `AnomalyInfo`. -/
def causeKeys (info : AnomalyInfo) : List ClassKey :=
  info.reason.map causeKey

/-- Modelled from the spec: `Classify(AnomalyInfo) -> (anomaly_type,
severity)` of the AnomalyClassifier (declared nowhere in the sources).
Pure and total; when the record carries structured causes the
highest-severity cause wins, ties resolved by the fixed type priority;
an unclassifiable record degrades to UNKNOWN/UNKNOWN. -/
def Classify (info : AnomalyInfo) : ClassKey :=
  match info.reason with
  | [] => classifyTop info
  | _ :: _ =>
    (causeKeys info).foldl (fun best k => if keyLt best k then k else best)
      (.UNKNOWN, .UNKNOWN)

/-- All anomaly records of a run: the feature-level records followed by
the dataset-level records. -/
def recordsOf (a : Anomalies) : List AnomalyInfo :=
  a.feature_anomalies.map Prod.snd ++ a.dataset_anomalies

/-- Increment the counter of one classification key by one. -/
def bump (c : TelemetryCounters) (k : ClassKey) : TelemetryCounters :=
  { c with counts := fun q => if q = k then c.counts q + 1 else c.counts q }

/-- Classify each record in turn and increment its counter. -/
def bumpAll (rs : List AnomalyInfo) (c : TelemetryCounters) : TelemetryCounters :=
  rs.foldl (fun acc info => bump acc (Classify info)) c

/-- Modelled from the spec: the body of `UpdateTelemetry`, whose
implementation is absent from the sources (telemetry.h declares it
only).  The call classifies every feature-level and dataset-level
record and increments the corresponding `(anomaly_type, severity)`
counter by one, increments total-runs by one unconditionally, and
increments total-anomalous-runs by one exactly when at least one
record was present.  State passing replaces the mutation of the
process-wide counters. -/
def UpdateTelemetry (result : Anomalies) (c : TelemetryCounters) :
    TelemetryCounters :=
  let c1 := bumpAll (recordsOf result) c
  let c2 := { c1 with total_runs := c1.total_runs + 1 }
  if (recordsOf result).isEmpty then c2
  else { c2 with total_anomalous_runs := c2.total_anomalous_runs + 1 }

/-- One atomic counter update, the granularity at which the spec
requires atomicity under concurrency. -/
inductive Event where
  | bumpKey (k : ClassKey)
  | bumpRuns
  | bumpAnomalous
deriving DecidableEq, Repr

/-- Apply a single atomic counter update. -/
def applyEvent (c : TelemetryCounters) : Event → TelemetryCounters
  | .bumpKey k => bump c k
  | .bumpRuns => { c with total_runs := c.total_runs + 1 }
  | .bumpAnomalous => { c with total_anomalous_runs := c.total_anomalous_runs + 1 }

/-- Apply a trace of atomic counter updates in order. -/
def applyEvents (tr : List Event) (c : TelemetryCounters) : TelemetryCounters :=
  tr.foldl applyEvent c

/-- Modelled from the spec: the sequence of atomic counter updates one
`UpdateTelemetry` call performs, in program order. -/
def callEvents (a : Anomalies) : List Event :=
  (recordsOf a).map (fun info => Event.bumpKey (Classify info)) ++
    [Event.bumpRuns] ++
    (if (recordsOf a).isEmpty then [] else [Event.bumpAnomalous])

/-- Modelled from the spec: the rest of the process state, of which the
telemetry counters are one component; `UpdateTelemetry` mutates the
counters only. -/
structure ProcessState (α : Type) where
  telemetry : TelemetryCounters
  rest : α

/-- Modelled from the spec: one `UpdateTelemetry` call as a step on the
whole process state; the result pairs the `Anomalies` value as the call
leaves it (the parameter is read-only) with the new process state. -/
def UpdateTelemetryStep (result : Anomalies) (s : ProcessState α) :
    Anomalies × ProcessState α :=
  (result, { s with telemetry := UpdateTelemetry result s.telemetry })

/-! Section: Counting lemmas -/

lemma bump_counts (c : TelemetryCounters) (k q : ClassKey) :
    (bump c k).counts q = if q = k then c.counts q + 1 else c.counts q := rfl

lemma bump_total_runs (c : TelemetryCounters) (k : ClassKey) :
    (bump c k).total_runs = c.total_runs := rfl

lemma bump_total_anomalous_runs (c : TelemetryCounters) (k : ClassKey) :
    (bump c k).total_anomalous_runs = c.total_anomalous_runs := rfl

lemma bumpAll_counts (rs : List AnomalyInfo) (c : TelemetryCounters)
    (k : ClassKey) :
    (bumpAll rs c).counts k = c.counts k + (rs.map Classify).count k := by
  induction rs generalizing c with
  | nil => simp [bumpAll]
  | cons r tl ih =>
    have h1 : bumpAll (r :: tl) c = bumpAll tl (bump c (Classify r)) := rfl
    rw [h1, ih, List.map_cons, List.count_cons, bump_counts]
    by_cases h : k = Classify r
    · simp [h]; omega
    · have h2 : ¬ Classify r = k := fun hc => h hc.symm
      simp [h, h2]

lemma bumpAll_total_runs (rs : List AnomalyInfo) (c : TelemetryCounters) :
    (bumpAll rs c).total_runs = c.total_runs := by
  induction rs generalizing c with
  | nil => rfl
  | cons r tl ih => simpa [bumpAll] using ih (bump c (Classify r))

lemma bumpAll_total_anomalous_runs (rs : List AnomalyInfo)
    (c : TelemetryCounters) :
    (bumpAll rs c).total_anomalous_runs = c.total_anomalous_runs := by
  induction rs generalizing c with
  | nil => rfl
  | cons r tl ih => simpa [bumpAll] using ih (bump c (Classify r))

lemma updateTelemetry_counts_eq (a : Anomalies) (c : TelemetryCounters)
    (k : ClassKey) :
    (UpdateTelemetry a c).counts k =
      c.counts k + ((recordsOf a).map Classify).count k := by
  unfold UpdateTelemetry
  by_cases h : (recordsOf a).isEmpty <;> simp [h, bumpAll_counts]

lemma updateTelemetry_runs_eq (a : Anomalies) (c : TelemetryCounters) :
    (UpdateTelemetry a c).total_runs = c.total_runs + 1 := by
  unfold UpdateTelemetry
  by_cases h : (recordsOf a).isEmpty <;> simp [h, bumpAll_total_runs]

lemma updateTelemetry_anomalous_eq (a : Anomalies) (c : TelemetryCounters) :
    (UpdateTelemetry a c).total_anomalous_runs =
      c.total_anomalous_runs + (if (recordsOf a).isEmpty then 0 else 1) := by
  unfold UpdateTelemetry
  by_cases h : (recordsOf a).isEmpty <;>
    simp [h, bumpAll_total_anomalous_runs]

lemma sum_count_eq_length (l : List ClassKey) :
    ∑ k : ClassKey, l.count k = l.length := by
  induction l with
  | nil => simp
  | cons a tl ih =>
    have h1 : ∀ k : ClassKey, (a :: tl).count k =
        tl.count k + if a = k then 1 else 0 := by
      intro k
      rw [List.count_cons]
      by_cases h : a = k <;> simp [h]
    calc ∑ k : ClassKey, (a :: tl).count k
        = ∑ k : ClassKey, (tl.count k + if a = k then 1 else 0) := by
          exact Finset.sum_congr rfl fun k _ => h1 k
      _ = (∑ k : ClassKey, tl.count k) +
            ∑ k : ClassKey, (if a = k then 1 else 0) := Finset.sum_add_distrib
      _ = tl.length + 1 := by rw [ih, Finset.sum_ite_eq]; simp
      _ = (a :: tl).length := by simp

/-! Section: Order lemmas for the classification key ordering -/

lemma lexLe_refl : ∀ a : ClassKey, lexLe a a := by decide

lemma lexLe_trans : ∀ a b c : ClassKey, lexLe a b → lexLe b c → lexLe a c := by
  decide

lemma lexLe_antisymm : ∀ a b : ClassKey, lexLe a b → lexLe b a → a = b := by
  decide

lemma keyLt_true_le : ∀ a b : ClassKey, keyLt a b = true → lexLe a b := by
  decide

lemma keyLt_false_ge : ∀ a b : ClassKey, keyLt a b = false → lexLe b a := by
  decide

lemma bot_lexLe : ∀ a : ClassKey, lexLe (.UNKNOWN, .UNKNOWN) a := by decide

lemma lexLe_bot_eq :
    ∀ a : ClassKey, lexLe a (.UNKNOWN, .UNKNOWN) → a = (.UNKNOWN, .UNKNOWN) := by
  decide

/-- The fold used by `Classify` computes an upper bound of its inputs that
is either the initial key or one of the list elements. -/
lemma foldl_pick (ks : List ClassKey) (init : ClassKey) :
    lexLe init (ks.foldl (fun best k => if keyLt best k then k else best) init) ∧
    (∀ q ∈ ks,
      lexLe q (ks.foldl (fun best k => if keyLt best k then k else best) init)) ∧
    (ks.foldl (fun best k => if keyLt best k then k else best) init = init ∨
      ks.foldl (fun best k => if keyLt best k then k else best) init ∈ ks) := by
  induction ks generalizing init with
  | nil => exact ⟨lexLe_refl init, by simp, Or.inl rfl⟩
  | cons k tl ih =>
    have hfold : (k :: tl).foldl (fun best k => if keyLt best k then k else best)
        init =
        tl.foldl (fun best k => if keyLt best k then k else best)
          (if keyLt init k then k else init) := rfl
    obtain ⟨h1, h2, h3⟩ := ih (if keyLt init k then k else init)
    have hinit : lexLe init (if keyLt init k then k else init) := by
      by_cases h : keyLt init k
      · simpa [h] using keyLt_true_le init k h
      · simpa [h] using lexLe_refl init
    have hk : lexLe k (if keyLt init k then k else init) := by
      by_cases h : keyLt init k
      · simpa [h] using lexLe_refl k
      · have := keyLt_false_ge init k (by simpa using h)
        simpa [h] using this
    refine ⟨?_, ?_, ?_⟩
    · rw [hfold]; exact lexLe_trans _ _ _ hinit h1
    · intro q hq
      rw [hfold]
      rcases List.mem_cons.mp hq with hq | hq
      · subst hq; exact lexLe_trans _ _ _ hk h1
      · exact h2 q hq
    · rw [hfold]
      rcases h3 with h3 | h3
      · rw [h3]
        by_cases h : keyLt init k
        · simp [h]
        · simp [h]
      · exact Or.inr (List.mem_cons_of_mem _ h3)

/-- Relational specification of the classifier: with no structured causes
the top-level fields decide; otherwise the result is a cause key that
bounds all cause keys in the severity-then-priority ordering. -/
def ClassifyRel (info : AnomalyInfo) (p : ClassKey) : Prop :=
  (info.reason = [] ∧ p = classifyTop info) ∨
    (info.reason ≠ [] ∧ p ∈ causeKeys info ∧ ∀ q ∈ causeKeys info, lexLe q p)

instance (info : AnomalyInfo) (p : ClassKey) : Decidable (ClassifyRel info p) := by
  unfold ClassifyRel
  infer_instance

/-- `Classify` realizes the relational specification. -/
lemma classifyRel_classify (info : AnomalyInfo) :
    ClassifyRel info (Classify info) := by
  cases hr : info.reason with
  | nil =>
    left
    refine ⟨hr, ?_⟩
    unfold Classify
    rw [hr]
  | cons c cs =>
    right
    have hne : info.reason ≠ [] := by rw [hr]; exact List.cons_ne_nil _ _
    have hkeys : causeKeys info = causeKey c :: cs.map causeKey := by
      unfold causeKeys; rw [hr]; rfl
    have hclass : Classify info =
        (causeKeys info).foldl (fun best k => if keyLt best k then k else best)
          (.UNKNOWN, .UNKNOWN) := by
      unfold Classify
      rw [hr]
    obtain ⟨h1, h2, h3⟩ := foldl_pick (causeKeys info) (.UNKNOWN, .UNKNOWN)
    rw [← hclass] at h1 h2 h3
    refine ⟨hne, ?_, h2⟩
    rcases h3 with h3 | h3
    · have hc : lexLe (causeKey c) (Classify info) := by
        apply h2
        rw [hkeys]
        exact List.mem_cons_self _ _
      rw [h3] at hc ⊢
      have := lexLe_bot_eq _ hc
      rw [hkeys, ← this]
      exact List.mem_cons_self _ _
    · exact h3

/-! Section: Event-trace lemmas -/

/-- The test whether an atomic update increments the counter of `k`. -/
def isBumpOf (k : ClassKey) (e : Event) : Bool :=
  e = Event.bumpKey k

lemma applyEvent_counts (c : TelemetryCounters) (e : Event) (k : ClassKey) :
    (applyEvent c e).counts k =
      c.counts k + (if isBumpOf k e then 1 else 0) := by
  cases e with
  | bumpKey q =>
    by_cases h : k = q
    · simp [applyEvent, bump, isBumpOf, h]
    · have h2 : ¬ Event.bumpKey q = Event.bumpKey k := by
        intro hc
        exact h (Event.bumpKey.injEq q k ▸ hc).symm
      simp [applyEvent, bump, isBumpOf, h, h2]
  | bumpRuns => simp [applyEvent, isBumpOf]
  | bumpAnomalous => simp [applyEvent, isBumpOf]

lemma applyEvents_counts (tr : List Event) (c : TelemetryCounters)
    (k : ClassKey) :
    (applyEvents tr c).counts k = c.counts k + tr.countP (isBumpOf k) := by
  induction tr generalizing c with
  | nil => simp [applyEvents]
  | cons e tl ih =>
    have h1 : applyEvents (e :: tl) c = applyEvents tl (applyEvent c e) := rfl
    rw [h1, ih, List.countP_cons, applyEvent_counts]
    by_cases h : isBumpOf k e
    · simp [h]; omega
    · simp [h]

/-- The event sequence of one call, applied in program order, is exactly
the state transformation of `UpdateTelemetry`. -/
lemma applyEvents_callEvents (a : Anomalies) (c : TelemetryCounters) :
    applyEvents (callEvents a) c = UpdateTelemetry a c := by
  unfold callEvents UpdateTelemetry applyEvents bumpAll
  by_cases h : (recordsOf a).isEmpty <;>
    simp [h, List.foldl_append, List.foldl_map, applyEvent]

/-! Section: Concrete sample values used by the witnesses -/

/-- A zeroed telemetry state, as at process start. -/
def zeroCounters : TelemetryCounters := ⟨fun _ => 0, 0, 0⟩

/-- A run with no anomalies at all. -/
def emptyRun : Anomalies := ⟨[], [], "baseline v1"⟩

/-- A record with a type-mismatch anomaly of severity ERROR. -/
def typeMismatchInfo : AnomalyInfo :=
  ⟨some .TYPE_MISMATCH, some .ERROR, "type mismatch", []⟩

/-- A run with exactly one feature-level anomaly record. -/
def oneAnomalyRun : Anomalies :=
  ⟨[("feature_a", typeMismatchInfo)], [], "baseline v1"⟩

/-- A record whose type field is unset. -/
def unsetTypeInfo : AnomalyInfo := ⟨none, some .ERROR, "unset type", []⟩

/-- A record carrying several structured causes of mixed severities. -/
def multiCauseInfo : AnomalyInfo :=
  ⟨none, none, "mixed",
    [⟨some .DISTRIBUTION_SKEW, some .ERROR, "skew"⟩,
     ⟨some .MISSING_COLUMN, some .ERROR, "missing"⟩,
     ⟨some .TYPE_MISMATCH, some .WARNING, "mismatch"⟩]⟩

/-! Section: Claim theorems -/

/-- C1: one `UpdateTelemetry` call adds to each `(anomaly_type, severity)`
counter exactly the number of records classified to that key, and the sum
of all those increments equals the number of feature-level plus
dataset-level anomaly records of the input. -/
theorem updateTelemetry_increment_sum (a : Anomalies) (c : TelemetryCounters) :
    ((UpdateTelemetry a c).counts =
      fun k => c.counts k + ((recordsOf a).map Classify).count k) ∧
    ∑ k : ClassKey, ((UpdateTelemetry a c).counts k - c.counts k) =
      (recordsOf a).length := by
  refine ⟨funext fun k => updateTelemetry_counts_eq a c k, ?_⟩
  have h2 : ∀ k : ClassKey, (UpdateTelemetry a c).counts k - c.counts k =
      ((recordsOf a).map Classify).count k := by
    intro k
    rw [updateTelemetry_counts_eq]
    omega
  calc ∑ k : ClassKey, ((UpdateTelemetry a c).counts k - c.counts k)
      = ∑ k : ClassKey, ((recordsOf a).map Classify).count k :=
        Finset.sum_congr rfl fun k _ => h2 k
    _ = ((recordsOf a).map Classify).length := sum_count_eq_length _
    _ = (recordsOf a).length := List.length_map _ _

/-- C2: on an input with empty `feature_anomalies` and empty
`dataset_anomalies`, `UpdateTelemetry` increments total-runs by exactly
one and leaves total-anomalous-runs and every classification counter
unchanged. -/
theorem updateTelemetry_empty_run (a : Anomalies) (c : TelemetryCounters)
    (hf : a.feature_anomalies = []) (hd : a.dataset_anomalies = []) :
    (UpdateTelemetry a c).total_runs = c.total_runs + 1 ∧
    (UpdateTelemetry a c).total_anomalous_runs = c.total_anomalous_runs ∧
    (UpdateTelemetry a c).counts = c.counts := by
  have hrec : recordsOf a = [] := by simp [recordsOf, hf, hd]
  refine ⟨updateTelemetry_runs_eq a c, ?_, ?_⟩
  · rw [updateTelemetry_anomalous_eq, hrec]
    rfl
  · funext k
    rw [updateTelemetry_counts_eq, hrec]
    rfl

/-- Witness for C2 at a concrete empty run and zeroed counters. -/
theorem updateTelemetry_empty_run_witness :
    (UpdateTelemetry emptyRun zeroCounters).total_runs =
      zeroCounters.total_runs + 1 ∧
    (UpdateTelemetry emptyRun zeroCounters).total_anomalous_runs =
      zeroCounters.total_anomalous_runs ∧
    (UpdateTelemetry emptyRun zeroCounters).counts = zeroCounters.counts :=
  updateTelemetry_empty_run emptyRun zeroCounters rfl rfl

/-- C3: on any input with at least one anomaly record, feature-level or
dataset-level, `UpdateTelemetry` increments total-anomalous-runs by
exactly one, whatever the number of records. -/
theorem updateTelemetry_anomalous_run (a : Anomalies) (c : TelemetryCounters)
    (h : a.feature_anomalies ≠ [] ∨ a.dataset_anomalies ≠ []) :
    (UpdateTelemetry a c).total_anomalous_runs =
      c.total_anomalous_runs + 1 := by
  have hrec : recordsOf a ≠ [] := by
    unfold recordsOf
    intro hc
    rcases List.append_eq_nil.mp hc with ⟨h1, h2⟩
    rcases h with h | h
    · exact h (List.map_eq_nil_iff.mp h1)
    · exact h h2
  have hE : (recordsOf a).isEmpty = false := by
    cases hrr : recordsOf a with
    | nil => exact absurd hrr hrec
    | cons x xs => rfl
  rw [updateTelemetry_anomalous_eq, hE]
  rfl

/-- Witness for C3 at a concrete one-anomaly run and zeroed counters. -/
theorem updateTelemetry_anomalous_run_witness :
    (UpdateTelemetry oneAnomalyRun zeroCounters).total_anomalous_runs =
      zeroCounters.total_anomalous_runs + 1 :=
  updateTelemetry_anomalous_run oneAnomalyRun zeroCounters
    (Or.inl (List.cons_ne_nil _ _))

/-- C4: every `UpdateTelemetry` call increments total-runs by exactly
one, anomalous input or not. -/
theorem updateTelemetry_total_runs (a : Anomalies) (c : TelemetryCounters) :
    (UpdateTelemetry a c).total_runs = c.total_runs + 1 :=
  updateTelemetry_runs_eq a c

/-- C5: classification is total, and a record that cannot be classified
(unset type field, no structured causes) is counted under the
UNKNOWN/UNKNOWN bucket: its counter gains exactly one. -/
theorem updateTelemetry_unknown_bucket (c : TelemetryCounters)
    (fid m : String) (i : AnomalyInfo)
    (ht : i.anomaly_type = none) (hr : i.reason = []) :
    Classify i = (.UNKNOWN, .UNKNOWN) ∧
    (UpdateTelemetry ⟨[(fid, i)], [], m⟩ c).counts (.UNKNOWN, .UNKNOWN) =
      c.counts (.UNKNOWN, .UNKNOWN) + 1 := by
  have hclass : Classify i = (.UNKNOWN, .UNKNOWN) := by
    unfold Classify
    rw [hr]
    unfold classifyTop
    rw [ht]
  refine ⟨hclass, ?_⟩
  rw [updateTelemetry_counts_eq]
  have hrec : recordsOf ⟨[(fid, i)], [], m⟩ = [i] := rfl
  rw [hrec, List.map_singleton, hclass]
  rfl

/-- Witness for C5 at a concrete record with an unset type field. -/
theorem updateTelemetry_unknown_bucket_witness :
    Classify unsetTypeInfo = (.UNKNOWN, .UNKNOWN) ∧
    (UpdateTelemetry ⟨[("feature_b", unsetTypeInfo)], [], "baseline v1"⟩
        zeroCounters).counts (.UNKNOWN, .UNKNOWN) =
      zeroCounters.counts (.UNKNOWN, .UNKNOWN) + 1 :=
  updateTelemetry_unknown_bucket zeroCounters "feature_b" "baseline v1"
    unsetTypeInfo rfl rfl

/-- C6: counters never decrease: after any `UpdateTelemetry` call every
classification counter, total-runs and total-anomalous-runs is at least
its previous value. -/
theorem updateTelemetry_monotone (a : Anomalies) (c : TelemetryCounters) :
    (∀ k, c.counts k ≤ (UpdateTelemetry a c).counts k) ∧
    c.total_runs ≤ (UpdateTelemetry a c).total_runs ∧
    c.total_anomalous_runs ≤ (UpdateTelemetry a c).total_anomalous_runs := by
  refine ⟨fun k => ?_, ?_, ?_⟩
  · rw [updateTelemetry_counts_eq]
    omega
  · rw [updateTelemetry_runs_eq]
    omega
  · rw [updateTelemetry_anomalous_eq]
    by_cases h : (recordsOf a).isEmpty <;> simp [h]

/-- C7: the classifier is a deterministic, total pure function: its
relational specification admits at most one classification per
`AnomalyInfo`, and `Classify` always produces one satisfying it. -/
theorem classify_deterministic_total :
    (∀ (i : AnomalyInfo) (p q : ClassKey),
      ClassifyRel i p → ClassifyRel i q → p = q) ∧
    ∀ i : AnomalyInfo, ClassifyRel i (Classify i) := by
  refine ⟨?_, classifyRel_classify⟩
  intro i p q hp hq
  rcases hp with ⟨h1, h2⟩ | ⟨h1, h2, h3⟩ <;>
    rcases hq with ⟨g1, g2⟩ | ⟨g1, g2, g3⟩
  · rw [h2, g2]
  · exact absurd h1 g1
  · exact absurd g1 h1
  · exact lexLe_antisymm p q (g3 p h2) (h3 q g2)

/-- Witness for C7: determinism and totality applied at a concrete
multi-cause record pin down its classification. -/
theorem classify_deterministic_total_witness :
    Classify multiCauseInfo = (.MISSING_COLUMN, .ERROR) :=
  classify_deterministic_total.1 multiCauseInfo _ _
    (classify_deterministic_total.2 multiCauseInfo) (by decide)

/-- C8: on a record with structured causes, `Classify` returns the key
of one of them, every cause key is bounded by the result in the
severity-then-priority ordering, and the fixed type priority ranks the
schema-structural kinds above the statistical kind. -/
theorem classify_highest_severity (i : AnomalyInfo) (h : i.reason ≠ []) :
    (∃ c ∈ i.reason, Classify i = causeKey c) ∧
    (∀ c ∈ i.reason, lexLe (causeKey c) (Classify i)) ∧
    typePrio .MISSING_COLUMN > typePrio .DISTRIBUTION_SKEW ∧
    typePrio .TYPE_MISMATCH > typePrio .DISTRIBUTION_SKEW := by
  rcases classifyRel_classify i with ⟨h1, _⟩ | ⟨_, h2, h3⟩
  · exact absurd h1 h
  · unfold causeKeys at h2 h3
    refine ⟨?_, ?_, by decide, by decide⟩
    · rcases List.mem_map.mp h2 with ⟨c, hc, hk⟩
      exact ⟨c, hc, hk.symm⟩
    · intro c hc
      exact h3 (causeKey c) (List.mem_map_of_mem _ hc)

/-- Witness for C8: at the concrete multi-cause record, the
equal-severity statistical cause is bounded by the classification. -/
theorem classify_highest_severity_witness :
    lexLe (causeKey ⟨some .DISTRIBUTION_SKEW, some .ERROR, "skew"⟩)
      (Classify multiCauseInfo) :=
  (classify_highest_severity multiCauseInfo (by decide)).2.1 _ (by decide)

/-- C9: one `UpdateTelemetry` call, seen as a step on the whole process
state, returns the input `Anomalies` value unchanged and changes only
the telemetry component of the state. -/
theorem updateTelemetryStep_frame {α : Type} (r : Anomalies)
    (s : ProcessState α) :
    (UpdateTelemetryStep r s).1 = r ∧
    (UpdateTelemetryStep r s).2.rest = s.rest ∧
    (UpdateTelemetryStep r s).2.telemetry = UpdateTelemetry r s.telemetry :=
  ⟨rfl, rfl, rfl⟩

/-- C10: with every counter update atomic, any interleaving of the
updates of N calls that each report exactly one anomaly of
classification `k` leaves the counter of `k` exactly N higher: no
increment is lost. -/
theorem updateTelemetry_no_lost_updates (as : List Anomalies) (k : ClassKey)
    (c : TelemetryCounters) (tr : List Event)
    (h1 : ∀ a ∈ as, (recordsOf a).map Classify = [k])
    (h2 : tr.Perm (as.map callEvents).flatten) :
    (applyEvents tr c).counts k = c.counts k + as.length := by
  rw [applyEvents_counts, h2.countP_eq, List.countP_flatten, List.map_map]
  have h4 : ∀ a ∈ as, (List.countP (isBumpOf k) ∘ callEvents) a = 1 := by
    intro a ha
    have hm := h1 a ha
    cases hrec : recordsOf a with
    | nil =>
      rw [hrec] at hm
      exact absurd hm (by simp)
    | cons r tl =>
      rw [hrec] at hm
      simp only [List.map_cons] at hm
      injection hm with hcr hmt
      cases tl with
      | cons t ts => simp at hmt
      | nil =>
        show (callEvents a).countP (isBumpOf k) = 1
        unfold callEvents
        rw [hrec]
        simp [isBumpOf, hcr, List.countP_cons]
  have h5 : ∀ (l : List Anomalies),
      (∀ a ∈ l, (List.countP (isBumpOf k) ∘ callEvents) a = 1) →
      (l.map (List.countP (isBumpOf k) ∘ callEvents)).sum = l.length := by
    intro l
    induction l with
    | nil => simp
    | cons a tl ih =>
      intro hl
      have ha := hl a (List.mem_cons_self _ _)
      have htl := ih fun x hx => hl x (List.mem_cons_of_mem _ hx)
      simp only [Function.comp] at ha
      simp [ha, htl]
      omega
  rw [h5 as h4]

/-- Witness for C10: two callers, one type-mismatch anomaly each, with
their atomic updates interleaved, leave the counter at exactly 2. -/
theorem updateTelemetry_no_lost_updates_witness :
    (applyEvents
        [Event.bumpKey (.TYPE_MISMATCH, .ERROR),
         Event.bumpKey (.TYPE_MISMATCH, .ERROR),
         Event.bumpRuns, Event.bumpAnomalous, Event.bumpRuns,
         Event.bumpAnomalous]
        zeroCounters).counts (.TYPE_MISMATCH, .ERROR) =
      zeroCounters.counts (.TYPE_MISMATCH, .ERROR) + 2 :=
  updateTelemetry_no_lost_updates
    [oneAnomalyRun, ⟨[], [typeMismatchInfo], "baseline v1"⟩]
    (.TYPE_MISMATCH, .ERROR) zeroCounters _ (by decide) (by decide)

end TFDV
